import Mathlib

/-!
Verification of the ComfyUI_Viewer content-type detection and rendering
registry.  The JavaScript sources under `web/` are shallowly embedded:
content strings become `List Char`, view modules become `ViewDef` records,
and the regular expressions used by the heuristic `detect` implementations
are embedded as a small executable matcher (`RE` / `matchK`).  The host
primitives `JSON.parse` / `JSON.stringify` are kept abstract as parameters
(`List Char → Option JsonV` etc.), since they are browser builtins, not
repository code.
-/

/-- Character class of JavaScript regex `\w`, that is `[A-Za-z0-9_]`. -/
def jsWordChar (c : Char) : Bool :=
  c.isAlphanum || c == '_'

/-- Character class of JavaScript regex `\s` (whitespace).  The embedding
covers the ASCII whitespace characters plus NBSP and BOM; the remaining
Unicode space code points never occur in the contents analysed here. -/
def jsSpace (c : Char) : Bool :=
  c == ' ' || c == '\t' || c == '\n' || c == '\r' ||
  c == '\x0b' || c == '\x0c' || c == ' ' || c == '﻿'

/-- Character class of JavaScript regex `.` (anything but a line break). -/
def jsDot (c : Char) : Bool :=
  !(c == '\n' || c == '\r')

/-- Left brace character, used when building source string literals. -/
def lbraceChar : Char := Char.ofNat 123

/-- Right brace character. -/
def rbraceChar : Char := Char.ofNat 125

/-- Syntax of the regular expressions appearing in the `detect`
implementations of the repository: literals, character classes, class
repetition (`*` and `+` only ever apply to a single character class in the
source patterns), option, alternation, sequencing, and the multiline `$`
anchor. -/
inductive RE where
  | eps : RE
  | lit : List Char → RE
  | cls : (Char → Bool) → RE
  | star : (Char → Bool) → RE
  | plus : (Char → Bool) → RE
  | opt : RE → RE
  | alt : RE → RE → RE
  | seq : RE → RE → RE
  | eol : RE

/-- Matcher continuation for `star`: try the continuation after consuming
every possible number of class characters. -/
def starK (f : Char → Bool) (k : List Char → Bool) : List Char → Bool
  | [] => k []
  | c :: rest => k (c :: rest) || (f c && starK f k rest)

/-- Backtracking matcher in continuation style: `matchK r s k` is true when
some prefix of `s` matches `r` and `k` accepts the corresponding suffix. -/
def matchK : RE → List Char → (List Char → Bool) → Bool
  | .eps, s, k => k s
  | .lit cs, s, k => cs.isPrefixOf s && k (s.drop cs.length)
  | .cls f, s, k =>
    match s with
    | [] => false
    | c :: rest => f c && k rest
  | .star f, s, k => starK f k s
  | .plus f, s, k =>
    match s with
    | [] => false
    | c :: rest => f c && starK f k rest
  | .opt r, s, k => matchK r s k || k s
  | .alt a b, s, k => matchK a s k || matchK b s k
  | .seq a b, s, k => matchK a s fun rest => matchK b rest k
  | .eol, s, k =>
    match s with
    | [] => k []
    | c :: _ => (c == '\n' || c == '\r') && k s

/-- Test of an unanchored JavaScript regex: a match may start anywhere. -/
def reTest (r : RE) : List Char → Bool
  | [] => matchK r [] fun _ => true
  | c :: rest => matchK r (c :: rest) (fun _ => true) || reTest r rest

/-- Test of a `^...`-anchored regex with the `m` flag: a match may start at
the beginning of the string or right after any line terminator. -/
def reTestML (r : RE) (s : List Char) : Bool :=
  matchK r s (fun _ => true) || goLines s
where
  goLines : List Char → Bool
  | [] => false
  | c :: rest =>
    ((c == '\n' || c == '\r') && matchK r rest fun _ => true) || goLines rest

/-- Embedding of `String.prototype.trim`. -/
def jsTrim (s : List Char) : List Char :=
  ((s.dropWhile jsSpace).reverse.dropWhile jsSpace).reverse

/-- Embedding of `String.prototype.includes` for a single character. -/
def containsChar (s : List Char) (c : Char) : Bool :=
  s.contains c

/-- Embedding of `String.prototype.includes` for a substring. -/
def containsSub : List Char → List Char → Bool
  | _, [] => true
  | [], _ :: _ => false
  | c :: rest, pat => pat.isPrefixOf (c :: rest) || containsSub rest pat

/-- Embedding of `String.prototype.split` with a non-empty string
separator, as used with `LIST_SEPARATOR` and `"\n"` in the sources: the
string is cut at each leftmost non-overlapping occurrence of the
separator.  The `fuel` argument only makes the recursion structural; every
step consumes at least one character, so `fuel = content.length` never runs
out. -/
def splitFuel (sep : List Char) : Nat → List Char → List Char → List (List Char)
  | _, [], acc => [acc.reverse]
  | 0, l, acc => [acc.reverse ++ l]
  | fuel + 1, c :: rest, acc =>
    if sep.isPrefixOf (c :: rest) && !sep.isEmpty then
      acc.reverse :: splitFuel sep fuel (rest.drop (sep.length - 1)) []
    else
      splitFuel sep fuel rest (c :: acc)

/-- Top-level split: `content.split(sep)`. -/
def splitOnSep (sep content : List Char) : List (List Char) :=
  splitFuel sep content.length content []

/-- Embedding of `Array.prototype.join`: `items.join(sep)`. -/
def joinSep (sep : List Char) (items : List (List Char)) : List Char :=
  List.intercalate sep items

example : splitOnSep "\n".data "a\nb".data = ["a".data, "b".data] := by decide
example : splitOnSep "\n".data [] = [[]] := by decide
example : splitOnSep "aa".data "aaa".data = [[], "a".data] := by decide

/-- Escape character (appears in the ANSI detection regexes). -/
def escChar : Char := Char.ofNat 27

/-- Backtick character (appears in the markdown fence pattern). -/
def btChar : Char := Char.ofNat 96

/-- Character class `[\w-]`. -/
def wdDash (c : Char) : Bool :=
  jsWordChar c || c == '-'

/-- Character class matching any character other than `x`. -/
def notCh (x : Char) (c : Char) : Bool :=
  !(c == x)

/-- Character class `\d`. -/
def digitCh (c : Char) : Bool :=
  c.isDigit

/-- Character class `[-*+]`. -/
def dashStarPlus (c : Char) : Bool :=
  c == '-' || c == '*' || c == '+'

/-- Character class `[.#]`. -/
def dotHash (c : Char) : Bool :=
  c == '.' || c == '#'

/-- Character class `[\d;]`. -/
def digitSemi (c : Char) : Bool :=
  c.isDigit || c == ';'

/-- Case-insensitive `x` (from the `/i` ANSI pattern). -/
def chXi (c : Char) : Bool :=
  c == 'x' || c == 'X'

/-- Case-insensitive `b`. -/
def chBi (c : Char) : Bool :=
  c == 'b' || c == 'B'

/-- Case-insensitive `m`. -/
def chMi (c : Char) : Bool :=
  c == 'm' || c == 'M'

/-- Score accumulation loop shared by the heuristic `detect`
implementations: `for (const [pattern, weight] of patterns) if
(pattern.test(trimmed)) score += weight`. -/
def patScore (s : List Char) (pats : List ((List Char → Bool) × Int)) : Int :=
  pats.foldl (fun acc pw => if pw.1 s then acc + pw.2 else acc) 0

/-- Regex `#{1,6}` (one to six hash characters, with backtracking). -/
def reHash16 : RE :=
  .seq (.lit ['#']) (.opt (.seq (.lit ['#']) (.opt (.seq (.lit ['#'])
    (.opt (.seq (.lit ['#']) (.opt (.seq (.lit ['#']) (.opt (.lit ['#']))))))))))

/-- Embedding of `MarkdownView.detect` (web/views/markdown.js). -/
def markdownDetect (content : List Char) : Int :=
  patScore (jsTrim content)
    [ (reTestML (.seq reHash16 (.seq (.plus jsSpace) (.plus jsDot))), 3),
      (reTestML (.seq (.star jsSpace) (.seq (.cls dashStarPlus)
        (.seq (.plus jsSpace) (.plus jsDot)))), 1),
      (reTestML (.seq (.star jsSpace) (.seq (.plus digitCh) (.seq (.lit ['.'])
        (.seq (.plus jsSpace) (.plus jsDot))))), 1),
      (reTest (.seq (.lit ['[']) (.seq (.plus (notCh ']')) (.seq (.lit [']', '('])
        (.seq (.plus (notCh ')')) (.lit [')']))))), 2),
      (reTestML (.seq (.star jsSpace) (.lit [btChar, btChar, btChar])), 3),
      (reTestML (.seq (.star jsSpace) (.lit ['>'])), 1),
      (reTest (.seq (.lit ['*', '*']) (.seq (.plus (notCh '*')) (.lit ['*', '*']))), 1),
      (reTest (.seq (.lit ['~', '~']) (.seq (.plus (notCh '~')) (.lit ['~', '~']))), 1),
      (reTestML (.seq (.star jsSpace) (.seq (.lit ['|']) (.seq (.plus jsDot)
        (.seq (.lit ['|']) (.seq (.plus jsDot) (.lit ['|'])))))), 2),
      (reTest (.seq (.lit ['!', '[']) (.seq (.star (notCh ']')) (.seq (.lit [']', '('])
        (.seq (.plus (notCh ')')) (.lit [')']))))), 2) ]

/-- Embedding of `PythonView.detect` (web/views/python.js). -/
def pythonDetect (content : List Char) : Int :=
  patScore (jsTrim content)
    [ (reTestML (.seq (.lit "import".data) (.seq (.plus jsSpace) (.plus jsWordChar))), 3),
      (reTestML (.seq (.lit "from".data) (.seq (.plus jsSpace) (.seq (.plus jsWordChar)
        (.seq (.plus jsSpace) (.lit "import".data))))), 3),
      (reTestML (.seq (.lit "def".data) (.seq (.plus jsSpace) (.seq (.plus jsWordChar)
        (.seq (.star jsSpace) (.lit ['(']))))), 3),
      (reTestML (.seq (.lit "class".data) (.seq (.plus jsSpace) (.plus jsWordChar))), 3),
      (reTest (.seq (.lit "self.".data) (.plus jsWordChar)), 2),
      (reTest (.lit "__init__".data), 2),
      (reTest (.lit "__name__".data), 2),
      (reTest (.seq (.lit [':']) (.seq (.star jsSpace) .eol)), 1),
      (reTestML (.seq (.plus jsSpace) (.seq (.lit "return".data) (.plus jsSpace))), 1),
      (reTestML (.seq (.plus jsSpace) (.seq (.lit "if".data) (.seq (.plus jsSpace)
        (.seq (.plus jsDot) (.lit [':']))))), 1),
      (reTestML (.seq (.plus jsSpace) (.seq (.lit "for".data) (.seq (.plus jsSpace)
        (.seq (.plus jsDot) (.lit [':']))))), 1),
      (reTestML (.seq (.plus jsSpace) (.seq (.lit "elif".data) (.plus jsSpace))), 2),
      (reTest (.alt (.lit "True".data) (.alt (.lit "False".data) (.lit "None".data))), 1) ]

/-- Embedding of `JavaScriptView.detect` (web/views/javascript.js). -/
def javascriptDetect (content : List Char) : Int :=
  patScore (jsTrim content)
    [ (reTestML (.seq (.lit "function".data) (.seq (.plus jsSpace) (.seq (.plus jsWordChar)
        (.seq (.star jsSpace) (.lit ['(']))))), 3),
      (reTestML (.seq (.lit "const".data) (.seq (.plus jsSpace) (.seq (.plus jsWordChar)
        (.seq (.star jsSpace) (.lit ['=']))))), 3),
      (reTestML (.seq (.lit "let".data) (.seq (.plus jsSpace) (.seq (.plus jsWordChar)
        (.seq (.star jsSpace) (.lit ['=']))))), 3),
      (reTestML (.seq (.lit "var".data) (.seq (.plus jsSpace) (.seq (.plus jsWordChar)
        (.seq (.star jsSpace) (.lit ['=']))))), 2),
      (reTest (.seq (.lit ['=', '>']) (.seq (.star jsSpace) (.lit [lbraceChar]))), 2),
      (reTestML (.seq (.lit "import".data) (.seq (.plus jsSpace) (.lit [lbraceChar]))), 3),
      (reTestML (.seq (.lit "export".data) (.seq (.plus jsSpace)
        (.opt (.seq (.lit "default".data) (.plus jsSpace))))), 3),
      (reTest (.seq (.lit "document.".data) (.plus jsWordChar)), 2),
      (reTest (.seq (.lit "console.".data) (.plus jsWordChar)), 2),
      (reTest (.lit ".addEventListener(".data), 2),
      (reTest (.alt (.lit ['=', '=', '=']) (.lit ['!', '=', '='])), 1),
      (reTest (.seq (.lit ['?', '.']) (.plus jsWordChar)), 2) ]

/-- Embedding of `CssView.detect` (web/views/css.js). -/
def cssDetect (content : List Char) : Int :=
  patScore (jsTrim content)
    [ (reTest (.seq (.cls dotHash) (.seq (.plus wdDash)
        (.seq (.star jsSpace) (.lit [lbraceChar])))), 2),
      (reTest (.seq (.lit [':']) (.seq (.star jsSpace) (.seq (.plus wdDash)
        (.seq (.star jsSpace) (.lit [';']))))), 2),
      (reTest (.seq (.lit "@media".data) (.cls jsSpace)), 3),
      (reTest (.seq (.lit ['@', 'i', 'm', 'p', 'o', 'r', 't']) (.cls jsSpace)), 2),
      (reTest (.seq (.lit "@keyframes".data) (.cls jsSpace)), 3),
      (reTestML (.seq (.star jsSpace) (.seq (.plus wdDash) (.seq (.lit [':'])
        (.seq (.star jsSpace) (.seq (.plus (notCh ';')) (.lit [';'])))))), 1) ]

/-- Embedding of `YamlView.detect` (web/views/yaml.js). -/
def yamlDetect (content : List Char) : Int :=
  let trimmed := jsTrim content
  let base := patScore trimmed
    [ (reTestML (.seq (.plus wdDash) (.seq (.lit [':'])
        (.seq (.star jsSpace) (.seq (.plus jsDot) .eol)))), 2),
      (reTestML (.seq (.plus wdDash) (.seq (.lit [':']) (.seq (.star jsSpace) .eol))), 2),
      (reTestML (.seq (.plus jsSpace) (.seq (.lit ['-']) (.seq (.plus jsSpace)
        (.seq (.plus jsDot) .eol)))), 1),
      (reTestML (.seq (.lit ['-', '-', '-']) (.seq (.star jsSpace) .eol)), 3) ]
  if containsSub trimmed [':', ' '] && !containsChar trimmed lbraceChar &&
      !containsChar trimmed '<' then
    base + 1
  else
    base

/-- Embedding of `AnsiView.detect` (web/views/ansi.js). -/
def ansiDetect (content : List Char) : Int :=
  let trimmed := jsTrim content
  if reTest (.seq (.lit [escChar, '[']) (.seq (.star digitSemi) (.lit ['m']))) trimmed then
    100
  else if reTest (.seq (.lit ['\\', '0', '3', '3', '[']) (.seq (.star digitSemi)
      (.lit ['m']))) trimmed ||
    reTest (.seq (.lit ['\\']) (.seq (.cls chXi) (.seq (.lit ['1']) (.seq (.cls chBi)
      (.seq (.lit ['[']) (.seq (.star digitSemi) (.cls chMi))))))) trimmed then
    100
  else
    0

/-- Embedding of `CsvView.detect` (web/views/csv.js).  The JavaScript
threshold `consistentCommas >= csvLines.length * 0.8` compares IEEE
doubles; it is embedded as the exact rational comparison `5 * consistent >=
4 * total` (no claim in this development exercises the branch on inputs
where the two could differ). -/
def csvDetect (content : List Char) : Int :=
  let trimmed := jsTrim content
  let lines := splitOnSep ['\n'] trimmed
  let csvLines := lines.filter fun l =>
    containsChar l ',' && !containsChar l lbraceChar && !containsChar l '<'
  if csvLines.length ≥ 2 then
    let firstLineCommas := (lines.headD []).count ','
    if firstLineCommas ≥ 1 then
      let consistent := (csvLines.filter fun l => l.count ',' == firstLineCommas).length
      if 5 * consistent ≥ 4 * csvLines.length then 5 else 0
    else 0
  else 0

/-- Embedding of `TextView.detect` (web/views/text.js): always 1. -/
def textDetect (_content : List Char) : Int := 1

/-- Values produced by the host `JSON.parse`.  Numbers are approximated by
integers; none of the verified properties inspects numeric payloads. -/
inductive JsonV where
  | jnull : JsonV
  | jbool : Bool → JsonV
  | jnum : Int → JsonV
  | jstr : String → JsonV
  | jarr : List JsonV → JsonV
  | jobj : List (String × JsonV) → JsonV

/-- Property read `value[key]` on a parsed JSON value: defined on objects,
`undefined` (here `none`) on everything else. -/
def getField : JsonV → String → Option JsonV
  | .jobj fields, key => fields.lookup key
  | _, _ => none

/-- Test `value[key] === s` for a string literal `s`. -/
def fieldIsStr (v : JsonV) (key : String) (s : String) : Bool :=
  match getField v key with
  | some (.jstr t) => t == s
  | _ => false

/-- Test `Array.isArray(value[key])`. -/
def fieldIsArr (v : JsonV) (key : String) : Bool :=
  match getField v key with
  | some (.jarr _) => true
  | _ => false

/-- JavaScript truthiness of a JSON value. -/
def jsTruthy : JsonV → Bool
  | .jnull => false
  | .jbool b => b
  | .jnum n => !(n == 0)
  | .jstr s => !(s == "")
  | .jarr _ => true
  | .jobj _ => true

/-- Marker `CanvasView.CANVAS_MARKER` (web/views/base_view.js). -/
def canvasMarker : List Char := "$WAS_CANVAS$".data

/-- Marker `ObjectView.OBJECT_MARKER` (web/views/object.js). -/
def objectMarker : List Char := "$WAS_OBJECT$".data

/-- Embedding of `CanvasView.detect` (web/views/base_view.js): strip the
marker if present, parse, and score 200 when the payload is a
`canvas_composer` envelope.  `parse` stands for the host `JSON.parse`
(returning `none` where it would throw). -/
def canvasDetect (parse : List Char → Option JsonV) (content : List Char) : Int :=
  let jsonContent :=
    if canvasMarker.isPrefixOf content then content.drop canvasMarker.length else content
  match parse jsonContent with
  | some v => if fieldIsStr v "type" "canvas_composer" && fieldIsArr v "images" then 200 else 0
  | none => 0

/-- Embedding of `ObjectView.detect` (web/views/object.js). -/
def objectDetect (parse : List Char → Option JsonV) (content : List Char) : Int :=
  let jsonContent :=
    if objectMarker.isPrefixOf content then content.drop objectMarker.length else content
  match parse jsonContent with
  | some v => if fieldIsStr v "type" "object_viewer" && fieldIsArr v "objects" then 150 else 0
  | none => 0

/-- Embedding of `JsonView.detect` (web/views/json.js): 100 when the
trimmed content starts with a brace or bracket and parses. -/
def jsonDetect (parse : List Char → Option JsonV) (content : List Char) : Int :=
  let trimmed := jsTrim content
  match trimmed with
  | c :: _ =>
    if c == lbraceChar || c == '[' then
      match parse trimmed with
      | some _ => 100
      | none => 0
    else 0
  | [] => 0

/-- Shape of a registered view as the detection engine sees it: id,
static priority, `detect`, and `getContentMarker()`. -/
structure ViewDef where
  id : String
  priority : Int
  detect : List Char → Int
  marker : Option (List Char)

/-- The canvas view module (web/views/base_view.js, `CanvasView`). -/
def canvasView (parse : List Char → Option JsonV) : ViewDef :=
  ⟨"canvas", 95, canvasDetect parse, some canvasMarker⟩

/-- The JSON view module (web/views/json.js). -/
def jsonView (parse : List Char → Option JsonV) : ViewDef :=
  ⟨"json", 90, jsonDetect parse, none⟩

/-- The ANSI/terminal view module (web/views/ansi.js). -/
def ansiView : ViewDef := ⟨"ansi", 80, ansiDetect, none⟩

/-- The markdown view module (web/views/markdown.js). -/
def markdownView : ViewDef := ⟨"markdown", 70, markdownDetect, none⟩

/-- The python view module (web/views/python.js). -/
def pythonView : ViewDef := ⟨"python", 60, pythonDetect, none⟩

/-- The javascript view module (web/views/javascript.js). -/
def javascriptView : ViewDef := ⟨"javascript", 55, javascriptDetect, none⟩

/-- The CSV view module (web/views/csv.js). -/
def csvView : ViewDef := ⟨"csv", 50, csvDetect, none⟩

/-- The CSS view module (web/views/css.js). -/
def cssView : ViewDef := ⟨"css", 45, cssDetect, none⟩

/-- The YAML view module (web/views/yaml.js). -/
def yamlView : ViewDef := ⟨"yaml", 40, yamlDetect, none⟩

/-- The object-inspector view module (web/views/object.js). -/
def objectView (parse : List Char → Option JsonV) : ViewDef :=
  ⟨"object", 5, objectDetect parse, some objectMarker⟩

/-- The fallback text view module (web/views/text.js). -/
def textView : ViewDef := ⟨"text", 0, textDetect, none⟩

/-- The set of registered views, in descending priority order.  The view
modules themselves are embedded from `web/views/`; the registration list
lives in `web/views/view_loader.js`, which is not under src/, so membership
follows the view modules present in the repository. -/
def viewRegistry (parse : List Char → Option JsonV) : List ViewDef :=
  [canvasView parse, jsonView parse, ansiView, markdownView, pythonView,
   javascriptView, csvView, cssView, yamlView, objectView parse, textView]

/-- Modelled from the spec: the marker short-circuit step of
`detectContentType` in `web/views/view_loader.js` (the file is not under
src/).  Per spec 4.2 step 1, content matching a registered view marker
prefix resolves immediately to that view; views are scanned in the
descending-priority order of spec 4.1. -/
def findMarkerView : List ViewDef → List Char → Option ViewDef
  | [], _ => none
  | v :: rest, content =>
    match v.marker with
    | some m => if m.isPrefixOf content then some v else findMarkerView rest content
    | none => findMarkerView rest content

/-- Modelled from the spec: the scoring loop of `detectContentType` in
`web/views/view_loader.js` (not under src/).  Per spec 4.2 step 3 the
strictly highest `detect` score wins, an exact tie goes to the higher
static priority, and a further tie goes to the earliest-registered view
(the fold keeps the incumbent unless strictly beaten). -/
def selectBest (views : List ViewDef) (content : List Char) : Option (ViewDef × Int) :=
  views.foldl
    (fun best v =>
      let s := v.detect content
      match best with
      | none => some (v, s)
      | some (bv, bs) =>
        if bs < s ∨ (s = bs ∧ bv.priority < v.priority) then some (v, s) else best)
    none

/-- Modelled from the spec: `detectContentType` of
`web/views/view_loader.js` (not under src/).  Marker match short-circuits
(spec 4.2 step 1); otherwise the best heuristic scorer is selected, and
content nothing scores above zero on falls back to the text view (spec 4.2
steps 2, 3 and 5). -/
def detectContentType (views : List ViewDef) (content : List Char) : String :=
  match findMarkerView views content with
  | some v => v.id
  | none =>
    match selectBest views content with
    | some (v, s) => if 0 < s then v.id else "text"
    | none => "text"

/-- Embedding of the JavaScript property assignment `obj[key] = val` on the
field list of a parsed JSON object: replace the value of an existing key in
place, else append the key at the end (object keys are unique, so the first
occurrence is the only one). -/
def setFieldList : List (String × JsonV) → String → JsonV → List (String × JsonV)
  | [], key, val => [(key, val)]
  | (k0, v0) :: rest, key, val =>
    if k0 == key then (k0, val) :: rest else (k0, v0) :: setFieldList rest key val

/-- Embedded effect of the assignment `canvasData.savedState = state` as
observed through `JSON.stringify`.  The class body of `CanvasView` is
strict-mode code, so the assignment throws a TypeError when the parsed
payload is a primitive (and on `null` in any mode) — modelled as `none`,
which `injectState` catches by returning the content unchanged.  On a plain
object the field is set; on an array the assignment succeeds but the added
property is dropped again by `JSON.stringify`, so the observed value is the
array itself. -/
def assignSavedState (v : JsonV) (st : JsonV) : Option JsonV :=
  match v with
  | .jobj fields => some (.jobj (setFieldList fields "savedState" st))
  | .jarr elems => some (.jarr elems)
  | _ => none

/-- Marker-stripping step shared by `CanvasView.detect`, `render` and
`injectState` (web/views/base_view.js): `let jsonContent = content; if
(content.startsWith(this.CANVAS_MARKER)) jsonContent = content.slice(...)`. -/
def canvasStripped (content : List Char) : List Char :=
  if canvasMarker.isPrefixOf content then content.drop canvasMarker.length else content

/-- The same stripping step for `ObjectView` (web/views/object.js). -/
def objectStripped (content : List Char) : List Char :=
  if objectMarker.isPrefixOf content then content.drop objectMarker.length else content

/-- Embedding of `BaseView.injectState` (web/views/base_view.js): the
default implementation returns the content unchanged. -/
def baseInjectState (content : List Char) (_state : Option JsonV) : List Char :=
  content

/-- Embedding of `CanvasView.injectState` (web/views/base_view.js):
returns content unchanged for falsy state or content, otherwise strips the
marker, parses, assigns `savedState`, and re-prefixes the marker around the
re-serialized payload; both a parse failure and the strict-mode TypeError
thrown by the assignment on primitive/null payloads are caught by the same
`catch`, returning the content unchanged.  `parse` and `stringify` stand
for the host `JSON.parse` / `JSON.stringify`. -/
def canvasInjectState (parse : List Char → Option JsonV) (stringify : JsonV → List Char)
    (content : List Char) (state : Option JsonV) : List Char :=
  match state with
  | none => content
  | some st =>
    if !jsTruthy st || content.isEmpty then content
    else
      match parse (canvasStripped content) with
      | none => content
      | some d =>
        match assignSavedState d st with
        | none => content
        | some d2 => canvasMarker ++ stringify d2

/-- Embedding of `ObjectView.render` (web/views/object.js): the failure
branch returns the literal invalid-data placeholder; the success branch
(the full object-inspector HTML, irrelevant to the verified claims) is
abstracted as `body`. -/
def objectRender (parse : List Char → Option JsonV) (body : JsonV → List Char)
    (content : List Char) : List Char :=
  match parse (objectStripped content) with
  | none => "<pre>Invalid object data</pre>".data
  | some d => body d

/-- Embedding of `CanvasView.render` (web/views/base_view.js), failure
branch from the source, success branch abstracted as `body`. -/
def canvasRender (parse : List Char → Option JsonV) (body : JsonV → List Char)
    (content : List Char) : List Char :=
  match parse (canvasStripped content) with
  | none => "<pre>Invalid canvas data</pre>".data
  | some d => body d

/-- Truthiness test `storedHash && storedHash !== inputHash` from
`onExecuted` (web/comfy_viewer.js), where `storedHash =
viewState._input_hash || ""`. -/
def storedHashTruthyNe (stored : Option JsonV) (inputHash : String) : Bool :=
  match stored with
  | none => false
  | some v =>
    jsTruthy v &&
      (match v with
       | .jstr h => !(h == inputHash)
       | _ => true)

/-- Test `key.endsWith("_output")`. -/
def endsWithOutput (key : String) : Bool :=
  "_output".data.reverse.isPrefixOf key.data.reverse

/-- Embedding of the stale-state invalidation step of `onExecuted`
(web/comfy_viewer.js): when an input hash arrives and the stored
`_input_hash` is truthy and different, every `*_output` entry is deleted,
and the new hash is recorded in `_input_hash`. -/
def onExecutedStateUpdate (state : List (String × JsonV)) (inputHash : String) :
    List (String × JsonV) :=
  if inputHash == "" then state
  else
    let stored := state.lookup "_input_hash"
    let cleared :=
      if storedHashTruthyNe stored inputHash then
        state.filter fun kv => !endsWithOutput kv.1
      else state
    setFieldList cleared "_input_hash" (.jstr inputHash)

/-- The list separator `LIST_SEPARATOR` (web/iframe/iframe_builder.js). -/
def listSep : List Char := "\n---LIST_SEPARATOR---\n".data

/-- The separator without its surrounding newlines; items containing this
core token can make a join/split round trip fail even when they do not
contain the full separator. -/
def listSepCore : List Char := "---LIST_SEPARATOR---".data

/-- Modelled from the spec: `stripContentMarker` of
`web/views/view_loader.js` (not under src/), per spec 4.3 `stripMarker`:
for a recognized single-view marker prefix, return the unprefixed payload
and the owning view; otherwise the content unchanged. -/
def stripContentMarker (views : List ViewDef) (content : List Char) :
    List Char × Option ViewDef :=
  match findMarkerView views content with
  | some v => (content.drop (v.marker.getD []).length, some v)
  | none => (content, none)

/-- The fixed type-to-extension table of `prepareContentForDownload`
(web/controls/controls_bar.js), with its `|| "txt"` fallback. -/
def extTable (contentType : String) : String :=
  (([("html", "html"), ("svg", "svg"), ("markdown", "md"), ("python", "py"),
     ("javascript", "js"), ("css", "css"), ("text", "txt"), ("object", "json"),
     ("canvas", "json")] : List (String × String)).lookup contentType).getD "txt"

/-- Embedding of `prepareContentForDownload` (web/controls/controls_bar.js):
strip any recognized marker; for the serialized object/canvas families try
to parse and pretty-print as JSON (extension `json`), else fall back to
`txt`; for everything else detect the stripped payload and use the
extension table.  `pretty` stands for `JSON.stringify(parsed, null, 2)`. -/
def prepareContentForDownload (parse : List Char → Option JsonV)
    (pretty : JsonV → List Char) (content : List Char) : List Char × String :=
  if content.isEmpty then ([], "txt")
  else
    let sv := stripContentMarker (viewRegistry parse) content
    match sv.2 with
    | some v =>
      if v.id == "object" || v.id == "canvas" then
        match parse sv.1 with
        | some d => (pretty d, "json")
        | none => (sv.1, "txt")
      else (sv.1, extTable (detectContentType (viewRegistry parse) sv.1))
    | none => (sv.1, extTable (detectContentType (viewRegistry parse) sv.1))

/-- Embedding of `String(idx + 1).padStart(3, "0")`. -/
def padStart3 (s : String) : String :=
  if s.length ≥ 3 then s else String.mk (List.replicate (3 - s.length) '0') ++ s

/-- Filename scheme of the download button for list items
(web/controls/controls_bar.js): `item_${String(idx + 1).padStart(3,
"0")}.${prepared.ext}`. -/
def itemFileName (idx : Nat) (ext : String) : String :=
  "item_" ++ padStart3 (toString (idx + 1)) ++ "." ++ ext

/-- Embedding of the list branch of the download handler
(web/controls/controls_bar.js): split on the separator, prepare each item,
and collect one named file per item for the archive. -/
def downloadListFiles (parse : List Char → Option JsonV)
    (pretty : JsonV → List Char) (content : List Char) : List (String × List Char) :=
  (splitOnSep listSep content).mapIdx fun idx item =>
    let prepared := prepareContentForDownload parse pretty item
    (itemFileName idx prepared.2, prepared.1)

/-- Embedding of the per-slot content hash of `updateIframeContent`
(web/comfy_viewer.js): `content ? content.length + "_" + content.slice(0,
100) : ""`. -/
def contentHashOf (content : List Char) : String :=
  if content.isEmpty then ""
  else toString content.length ++ "_" ++ String.mk (content.take 100)

/-- Embedding of the early-return guard of `updateIframeContent`
(web/comfy_viewer.js): `if (contentHash === elements.lastContentHash &&
!forceView) return` — true exactly when the update is skipped. -/
def shouldSkipRender (content : List Char) (lastHash : String)
    (forceView : Option String) : Bool :=
  contentHashOf content == lastHash && forceView.isNone

/-- Embedding of the `was-viewer-toggle` handler (web/comfy_viewer.js):
checking an item removes every occurrence of its index from the excluded
list, unchecking appends the index only when absent. -/
def toggleItemExcluded (excluded : List Nat) (idx : Nat) (checked : Bool) : List Nat :=
  if checked then excluded.filter fun i => !(i == idx)
  else if excluded.contains idx then excluded
  else excluded ++ [idx]

/-- Embedding of the toggle-all button handler
(web/controls/controls_bar.js): when nothing is excluded, exclude the index
of every current item (`items.map((_, i) => i)`); otherwise clear the
list. -/
def toggleAllExcluded (excluded : List Nat) (numItems : Nat) : List Nat :=
  if excluded.length == 0 then List.range numItems else []

/-- A fully generic input: ordinary prose matching no format heuristic. -/
def genericContent : List Char := "lorem ipsum dolor sit amet".data

/-- Embedding of `String.prototype.endsWith` for a non-empty suffix. -/
def endsWithList (s suffixPat : List Char) : Bool :=
  suffixPat.reverse.isPrefixOf s.reverse

/-- The hard-coded `htmlTags` list of the legacy `detectContentType`
(src/unnamed/part_005). -/
def legacyHtmlTags : List (List Char) :=
  ["<div".data, "<span".data, "<p>".data, "<h1".data, "<h2".data, "<h3".data,
   "<table".data, "<ul".data, "<ol".data, "<img".data, "<a ".data, "<br".data,
   "<hr".data, "<em>".data, "<strong>".data, "<b>".data, "<i>".data,
   "<code>".data, "<pre>".data]

/-- The `scores.html` accumulation of the legacy `detectContentType`
(src/unnamed/part_005): +2 per contained tag, +1 when the trimmed content
starts with `<` and ends with `>`. -/
def legacyHtmlScore (trimmed : List Char) : Int :=
  legacyHtmlTags.foldl (fun acc tag => if containsSub trimmed tag then acc + 2 else acc) 0
  + (if "<".data.isPrefixOf trimmed && endsWithList trimmed ">".data then 1 else 0)

/-- The `scores.markdown` accumulation of the legacy `detectContentType`
(src/unnamed/part_005); the pattern list is duplicated verbatim from the
markdown view module in that source file. -/
def legacyMarkdownScore (trimmed : List Char) : Int :=
  patScore trimmed
    [ (reTestML (.seq reHash16 (.seq (.plus jsSpace) (.plus jsDot))), 3),
      (reTestML (.seq (.star jsSpace) (.seq (.cls dashStarPlus)
        (.seq (.plus jsSpace) (.plus jsDot)))), 1),
      (reTestML (.seq (.star jsSpace) (.seq (.plus digitCh) (.seq (.lit ['.'])
        (.seq (.plus jsSpace) (.plus jsDot))))), 1),
      (reTest (.seq (.lit ['[']) (.seq (.plus (notCh ']')) (.seq (.lit [']', '('])
        (.seq (.plus (notCh ')')) (.lit [')']))))), 2),
      (reTestML (.seq (.star jsSpace) (.lit [btChar, btChar, btChar])), 3),
      (reTestML (.seq (.star jsSpace) (.lit ['>'])), 1),
      (reTest (.seq (.lit ['*', '*']) (.seq (.plus (notCh '*')) (.lit ['*', '*']))), 1),
      (reTest (.seq (.lit ['~', '~']) (.seq (.plus (notCh '~')) (.lit ['~', '~']))), 1),
      (reTestML (.seq (.star jsSpace) (.seq (.lit ['|']) (.seq (.plus jsDot)
        (.seq (.lit ['|']) (.seq (.plus jsDot) (.lit ['|'])))))), 2),
      (reTest (.seq (.lit ['!', '[']) (.seq (.star (notCh ']')) (.seq (.lit [']', '('])
        (.seq (.plus (notCh ')')) (.lit [')']))))), 2) ]

/-- The `scores.python` accumulation of the legacy `detectContentType`
(src/unnamed/part_005). -/
def legacyPythonScore (trimmed : List Char) : Int :=
  patScore trimmed
    [ (reTestML (.seq (.lit "import".data) (.seq (.plus jsSpace) (.plus jsWordChar))), 3),
      (reTestML (.seq (.lit "from".data) (.seq (.plus jsSpace) (.seq (.plus jsWordChar)
        (.seq (.plus jsSpace) (.lit "import".data))))), 3),
      (reTestML (.seq (.lit "def".data) (.seq (.plus jsSpace) (.seq (.plus jsWordChar)
        (.seq (.star jsSpace) (.lit ['(']))))), 3),
      (reTestML (.seq (.lit "class".data) (.seq (.plus jsSpace) (.plus jsWordChar))), 3),
      (reTest (.seq (.lit "self.".data) (.plus jsWordChar)), 2),
      (reTest (.lit "__init__".data), 2),
      (reTest (.lit "__name__".data), 2),
      (reTest (.seq (.lit [':']) (.seq (.star jsSpace) .eol)), 1),
      (reTestML (.seq (.plus jsSpace) (.seq (.lit "return".data) (.plus jsSpace))), 1),
      (reTestML (.seq (.plus jsSpace) (.seq (.lit "if".data) (.seq (.plus jsSpace)
        (.seq (.plus jsDot) (.lit [':']))))), 1),
      (reTestML (.seq (.plus jsSpace) (.seq (.lit "for".data) (.seq (.plus jsSpace)
        (.seq (.plus jsDot) (.lit [':']))))), 1),
      (reTestML (.seq (.plus jsSpace) (.seq (.lit "elif".data) (.plus jsSpace))), 2),
      (reTest (.alt (.lit "True".data) (.alt (.lit "False".data) (.lit "None".data))), 1) ]

/-- The `scores.javascript` accumulation of the legacy `detectContentType`
(src/unnamed/part_005). -/
def legacyJavascriptScore (trimmed : List Char) : Int :=
  patScore trimmed
    [ (reTestML (.seq (.lit "function".data) (.seq (.plus jsSpace) (.seq (.plus jsWordChar)
        (.seq (.star jsSpace) (.lit ['(']))))), 3),
      (reTestML (.seq (.lit "const".data) (.seq (.plus jsSpace) (.seq (.plus jsWordChar)
        (.seq (.star jsSpace) (.lit ['=']))))), 3),
      (reTestML (.seq (.lit "let".data) (.seq (.plus jsSpace) (.seq (.plus jsWordChar)
        (.seq (.star jsSpace) (.lit ['=']))))), 3),
      (reTestML (.seq (.lit "var".data) (.seq (.plus jsSpace) (.seq (.plus jsWordChar)
        (.seq (.star jsSpace) (.lit ['=']))))), 2),
      (reTest (.seq (.lit ['=', '>']) (.seq (.star jsSpace) (.lit [lbraceChar]))), 2),
      (reTestML (.seq (.lit "import".data) (.seq (.plus jsSpace) (.lit [lbraceChar]))), 3),
      (reTestML (.seq (.lit "export".data) (.seq (.plus jsSpace)
        (.opt (.seq (.lit "default".data) (.plus jsSpace))))), 3),
      (reTest (.seq (.lit "document.".data) (.plus jsWordChar)), 2),
      (reTest (.seq (.lit "console.".data) (.plus jsWordChar)), 2),
      (reTest (.lit ".addEventListener(".data), 2),
      (reTest (.alt (.lit ['=', '=', '=']) (.lit ['!', '=', '='])), 1),
      (reTest (.seq (.lit ['?', '.']) (.plus jsWordChar)), 2) ]

/-- The `scores.css` accumulation of the legacy `detectContentType`
(src/unnamed/part_005). -/
def legacyCssScore (trimmed : List Char) : Int :=
  patScore trimmed
    [ (reTest (.seq (.cls dotHash) (.seq (.plus wdDash)
        (.seq (.star jsSpace) (.lit [lbraceChar])))), 2),
      (reTest (.seq (.lit [':']) (.seq (.star jsSpace) (.seq (.plus wdDash)
        (.seq (.star jsSpace) (.lit [';']))))), 2),
      (reTest (.seq (.lit "@media".data) (.cls jsSpace)), 3),
      (reTest (.seq (.lit ['@', 'i', 'm', 'p', 'o', 'r', 't']) (.cls jsSpace)), 2),
      (reTest (.seq (.lit "@keyframes".data) (.cls jsSpace)), 3),
      (reTestML (.seq (.star jsSpace) (.seq (.plus wdDash) (.seq (.lit [':'])
        (.seq (.star jsSpace) (.seq (.plus (notCh ';')) (.lit [';'])))))), 1) ]

/-- The SVG short-circuit condition of the legacy `detectContentType`
(src/unnamed/part_005). -/
def legacySvgGuard (trimmed : List Char) : Bool :=
  "<svg".data.isPrefixOf trimmed ||
  ("<?xml".data.isPrefixOf trimmed && containsSub trimmed "<svg".data) ||
  ("<".data.isPrefixOf trimmed && containsSub trimmed "xmlns".data &&
    containsSub trimmed "<svg".data)

/-- The HTML short-circuit condition of the legacy `detectContentType`
(src/unnamed/part_005). -/
def legacyHtmlGuard (trimmed : List Char) : Bool :=
  "<!DOCTYPE".data.isPrefixOf trimmed || "<html".data.isPrefixOf trimmed ||
  ("<".data.isPrefixOf trimmed &&
    (containsSub trimmed "<head".data || containsSub trimmed "<body".data))

/-- The maximum loop of the legacy `detectContentType`
(src/unnamed/part_005): walk `Object.entries(scores)` in insertion order,
replacing the incumbent only on a strictly larger score, starting from
`maxType = "text"` and `maxScore = 0`. -/
def legacyMaxEntry (entries : List (String × Int)) : String × Int :=
  entries.foldl (fun best e => if e.2 > best.2 then e else best) ("text", 0)

/-- Embedding of `detectContentType` from the legacy monolithic module
src/unnamed/part_005 (lines 84-183): empty content is text; SVG and HTML
prefix signatures short-circuit; otherwise five hard-coded score families
(html, markdown, python, javascript, css — in the insertion order of the
`scores` object) compete, the strict maximum wins, and anything below the
threshold of 2 falls back to text. -/
def legacyDetectContentType (content : List Char) : String :=
  if content.isEmpty then "text"
  else
    let trimmed := jsTrim content
    if legacySvgGuard trimmed then "svg"
    else if legacyHtmlGuard trimmed then "html"
    else
      let best := legacyMaxEntry
        [("html", legacyHtmlScore trimmed), ("markdown", legacyMarkdownScore trimmed),
         ("python", legacyPythonScore trimmed),
         ("javascript", legacyJavascriptScore trimmed), ("css", legacyCssScore trimmed)]
      if best.2 ≥ 2 then best.1 else "text"

theorem isPrefixOf_append_self (l s : List Char) : l.isPrefixOf (l ++ s) = true := by
  induction l with
  | nil => simp [List.isPrefixOf]
  | cons c rest ih => simp [List.isPrefixOf, ih]

theorem isPrefixOf_append_eq (l₁ l₂ s : List Char) (h : l₁.length ≤ l₂.length) :
    l₁.isPrefixOf (l₂ ++ s) = l₁.isPrefixOf l₂ := by
  induction l₁ generalizing l₂ with
  | nil => simp [List.isPrefixOf]
  | cons c rest ih =>
    cases l₂ with
    | nil => simp at h
    | cons d rest₂ =>
      simp only [List.cons_append, List.isPrefixOf, List.append_eq]
      rw [ih rest₂ (by simpa using h)]

/-- Claim C9: the per-slot change guard hashes content as its length plus
its first 100 characters, skips the update exactly when this hash matches
the stored one and no view is forced, and therefore misses some pairs of
distinct contents that agree on length and 100-character prefix. -/
theorem contentHash_rerender_guard :
    (∀ content lastHash, shouldSkipRender content lastHash none = true ↔
      contentHashOf content = lastHash)
    ∧ (∀ content lastHash v, shouldSkipRender content lastHash (some v) = false)
    ∧ (∃ c1 c2 : List Char, c1 ≠ c2 ∧ c1.length = c2.length ∧
        c1.take 100 = c2.take 100 ∧
        shouldSkipRender c2 (contentHashOf c1) none = true) := by
  refine ⟨?_, ?_, ?_⟩
  · intro content lastHash
    simp [shouldSkipRender]
  · intro content lastHash v
    simp [shouldSkipRender]
  · exact ⟨List.replicate 100 'a' ++ ['b'], List.replicate 100 'a' ++ ['c'],
      by decide, by decide, by decide, by decide⟩

/-- Claim C10: the include/exclude handlers preserve distinctness of the
excluded-indices list — checking filters out every occurrence of the index,
unchecking appends only when absent, and toggle-all produces either the
empty list or exactly the range of item indices. -/
theorem excluded_nodup_invariant :
    (∀ (excluded : List Nat) (idx : Nat) (checked : Bool), excluded.Nodup →
      (toggleItemExcluded excluded idx checked).Nodup)
    ∧ (∀ excluded n, (toggleAllExcluded excluded n).Nodup)
    ∧ (∀ excluded idx, idx ∉ toggleItemExcluded excluded idx true)
    ∧ (∀ excluded idx, excluded.contains idx = false →
        toggleItemExcluded excluded idx false = excluded ++ [idx])
    ∧ (∀ excluded idx, excluded.contains idx = true →
        toggleItemExcluded excluded idx false = excluded)
    ∧ (∀ excluded n, toggleAllExcluded excluded n = [] ∨
        toggleAllExcluded excluded n = List.range n) := by
  refine ⟨?_, ?_, ?_, ?_, ?_, ?_⟩
  · intro excluded idx checked h
    unfold toggleItemExcluded
    split
    · exact h.filter _
    · split
      · exact h
      · refine h.append (by simp) ?_
        intro a ha hb
        simp only [List.mem_singleton] at hb
        subst hb
        have : excluded.contains a = true := by simpa using ha
        simp_all
  · intro excluded n
    unfold toggleAllExcluded
    split
    · exact List.nodup_range n
    · exact List.nodup_nil
  · intro excluded idx h
    unfold toggleItemExcluded at h
    simp at h
  · intro excluded idx h
    show (if excluded.contains idx = true then excluded else excluded ++ [idx]) =
      excluded ++ [idx]
    rw [h]
    simp
  · intro excluded idx h
    show (if excluded.contains idx = true then excluded else excluded ++ [idx]) = excluded
    rw [h]
    simp
  · intro excluded n
    unfold toggleAllExcluded
    split
    · right; rfl
    · left; rfl

theorem excluded_nodup_invariant_witness :
    (toggleItemExcluded [0, 2] 2 true).Nodup ∧
    toggleItemExcluded [0, 2] 1 false = [0, 2, 1] := by
  constructor
  · exact excluded_nodup_invariant.1 [0, 2] 2 true (by decide)
  · exact excluded_nodup_invariant.2.2.2.1 [0, 2] 1 (by decide)

/-- Claim C6: content carrying a view marker whose payload does not parse
as JSON renders to the minimal invalid-data placeholder of the owning view;
the failure is caught inside `render` and never escapes. -/
theorem invalid_payload_placeholder :
    ∀ (parse : List Char → Option JsonV) (body : JsonV → List Char)
      (payload : List Char),
      parse payload = none →
      objectRender parse body (objectMarker ++ payload) =
        "<pre>Invalid object data</pre>".data
      ∧ canvasRender parse body (canvasMarker ++ payload) =
        "<pre>Invalid canvas data</pre>".data := by
  intro parse body payload h
  constructor
  · unfold objectRender objectStripped
    rw [isPrefixOf_append_self]
    simp [h]
  · unfold canvasRender canvasStripped
    rw [isPrefixOf_append_self]
    simp [h]

theorem invalid_payload_placeholder_witness :
    objectRender (fun _ => none) (fun _ => []) (objectMarker ++ "not json".data) =
      "<pre>Invalid object data</pre>".data := by
  exact (invalid_payload_placeholder (fun _ => none) (fun _ => [])
    "not json".data rfl).1

theorem setFieldList_lookup (l : List (String × JsonV)) (key : String) (val : JsonV) :
    (setFieldList l key val).lookup key = some val := by
  induction l with
  | nil => simp [setFieldList, List.lookup]
  | cons kv rest ih =>
    obtain ⟨k0, v0⟩ := kv
    by_cases hk : k0 = key
    · subst hk
      simp [setFieldList, List.lookup]
    · have h1 : (k0 == key) = false := beq_eq_false_iff_ne.mpr hk
      have h2 : (key == k0) = false := beq_eq_false_iff_ne.mpr (Ne.symm hk)
      simp [setFieldList, h1, h2, List.lookup, ih]

theorem setFieldList_key_prop (P : String → Prop) (l : List (String × JsonV))
    (key : String) (val : JsonV) (hl : ∀ kv ∈ l, P kv.1) (hk : P key) :
    ∀ kv ∈ setFieldList l key val, P kv.1 := by
  induction l with
  | nil =>
    intro kv h
    simp only [setFieldList, List.mem_singleton] at h
    subst h
    exact hk
  | cons kv0 rest ih =>
    obtain ⟨k0, v0⟩ := kv0
    intro kv h
    by_cases hcase : k0 == key
    · simp only [setFieldList, hcase, if_true] at h
      rcases List.mem_cons.mp h with h1 | h2
      · subst h1
        exact hl (k0, v0) (List.mem_cons_self _ _)
      · exact hl kv (List.mem_cons_of_mem _ h2)
    · simp only [setFieldList, hcase, Bool.false_eq_true, if_false] at h
      rcases List.mem_cons.mp h with h1 | h2
      · subst h1
        exact hl (k0, v0) (List.mem_cons_self _ _)
      · exact ih (fun kv hm => hl kv (List.mem_cons_of_mem _ hm)) kv h2

/-- Claim C3: when a new execution arrives whose input hash differs from
the one stored in the persisted view state, every `*_output` entry is
deleted from the state and the new hash is recorded under `_input_hash`. -/
theorem stale_state_invalidation (state : List (String × JsonV)) (h1 h2 : String)
    (hstored : state.lookup "_input_hash" = some (.jstr h1))
    (h1ne : h1 ≠ "") (h2ne : h2 ≠ "") (hne : h1 ≠ h2) :
    (∀ kv ∈ onExecutedStateUpdate state h2, endsWithOutput kv.1 = false)
    ∧ (onExecutedStateUpdate state h2).lookup "_input_hash" = some (.jstr h2) := by
  have hguard : (h2 == "") = false := by
    rw [beq_eq_false_iff_ne]
    exact h2ne
  have htruthy : storedHashTruthyNe (state.lookup "_input_hash") h2 = true := by
    rw [hstored]
    simp only [storedHashTruthyNe, jsTruthy]
    have e1 : (h1 == "") = false := by rw [beq_eq_false_iff_ne]; exact h1ne
    have e2 : (h1 == h2) = false := by rw [beq_eq_false_iff_ne]; exact hne
    simp [e1, e2]
  have hres : onExecutedStateUpdate state h2 =
      setFieldList (state.filter fun kv => !endsWithOutput kv.1) "_input_hash"
        (.jstr h2) := by
    unfold onExecutedStateUpdate
    rw [hguard]
    simp only [Bool.false_eq_true, if_false, htruthy, if_true]
  rw [hres]
  constructor
  · refine setFieldList_key_prop (fun k => endsWithOutput k = false) _ _ _ ?_ (by decide)
    intro kv hm
    have := List.of_mem_filter hm
    simpa using this
  · exact setFieldList_lookup _ _ _

theorem stale_state_invalidation_witness :
    (onExecutedStateUpdate
      [("_input_hash", JsonV.jstr "a"), ("canvas_output", JsonV.jstr "big"),
       ("keep", JsonV.jnull)] "b").lookup "_input_hash" = some (JsonV.jstr "b") := by
  exact (stale_state_invalidation
    [("_input_hash", JsonV.jstr "a"), ("canvas_output", JsonV.jstr "big"),
     ("keep", JsonV.jnull)]
    "a" "b" rfl (by decide) (by decide) (by decide)).2

/-- Claim C4 is false on the engine it cites: on this content the
registered JSON view (static priority 90) and the registered ANSI view
(static priority 80) both return detect score 100 — the content is valid
JSON and contains a literal ANSI escape sequence — yet `detectContentType`
of src/unnamed/part_005 consults no registered view at all: its five
hard-coded score families all stay below the threshold and it returns
"text", not the higher-priority view. -/
theorem legacy_tie_break_counterexample :
    jsonDetect
        (fun s => if s == "[\"\\\\x1b[31m\"]".data
          then some (JsonV.jarr [JsonV.jstr "\\x1b[31m"]) else none)
        "[\"\\\\x1b[31m\"]".data = 100
    ∧ ansiDetect "[\"\\\\x1b[31m\"]".data = 100
    ∧ (jsonView fun _ => none).priority = 90
    ∧ ansiView.priority = 80
    ∧ legacyDetectContentType "[\"\\\\x1b[31m\"]".data = "text"
    ∧ legacyDetectContentType "[\"\\\\x1b[31m\"]".data ≠ "json" := by
  refine ⟨by decide, by decide, rfl, rfl, by decide, by decide⟩

/-- Claim C4 (amended): the engine cited by the claim
(src/unnamed/part_005) resolves an exact score tie by the fixed insertion
order of its scores object — html, markdown, python, javascript, css — and
has no notion of registration order; for the families whose view modules
are in the source this order coincides with strictly descending static
priority, so when the markdown and python families tie at the winning
score the engine returns markdown, the family of the higher module
priority. -/
theorem legacy_tie_break :
    (∀ content : List Char, content ≠ [] →
      legacySvgGuard (jsTrim content) = false →
      legacyHtmlGuard (jsTrim content) = false →
      legacyMarkdownScore (jsTrim content) = legacyPythonScore (jsTrim content) →
      legacyHtmlScore (jsTrim content) < legacyMarkdownScore (jsTrim content) →
      legacyJavascriptScore (jsTrim content) ≤ legacyMarkdownScore (jsTrim content) →
      legacyCssScore (jsTrim content) ≤ legacyMarkdownScore (jsTrim content) →
      2 ≤ legacyMarkdownScore (jsTrim content) →
      legacyDetectContentType content = "markdown")
    ∧ markdownView.priority = 70 ∧ pythonView.priority = 60
    ∧ pythonView.priority < markdownView.priority
    ∧ javascriptView.priority < pythonView.priority
    ∧ cssView.priority < javascriptView.priority := by
  refine ⟨?_, rfl, rfl, by norm_num [markdownView, pythonView],
    by norm_num [pythonView, javascriptView], by norm_num [javascriptView, cssView]⟩
  intro content hne hsvg hhtml htie hh hj hcss h2
  have hempty : content.isEmpty = false := by
    cases content with
    | nil => exact absurd rfl hne
    | cons c rest => rfl
  simp only [legacyDetectContentType, hempty, Bool.false_eq_true, if_false, hsvg, hhtml]
  simp only [legacyMaxEntry, List.foldl]
  split_ifs <;> first | rfl | (exfalso; omega)

theorem legacy_tie_break_witness :
    legacyDetectContentType "# x\nimport os".data = "markdown" := by
  exact legacy_tie_break.1 "# x\nimport os".data (by decide) (by decide) (by decide)
    (by decide) (by decide) (by decide) (by decide) (by decide)

/-- Claim C1: content starting with the marker of a registered view always
resolves to that view, whatever else follows the marker — the marker scan
runs before any heuristic scoring, so no competing score can override it. -/
theorem marker_short_circuit :
    ∀ (parse : List Char → Option JsonV) (v : ViewDef) (m tail : List Char),
      v ∈ viewRegistry parse → v.marker = some m →
      detectContentType (viewRegistry parse) (m ++ tail) = v.id := by
  intro parse v m tail hmem hmarker
  simp only [viewRegistry, List.mem_cons, List.not_mem_nil, or_false] at hmem
  rcases hmem with h | h | h | h | h | h | h | h | h | h | h
  · subst h
    rw [show (canvasView parse).marker = some canvasMarker from rfl] at hmarker
    cases hmarker
    simp [detectContentType, viewRegistry, findMarkerView, canvasView,
      isPrefixOf_append_self]
  · subst h; simp [jsonView] at hmarker
  · subst h; simp [ansiView] at hmarker
  · subst h; simp [markdownView] at hmarker
  · subst h; simp [pythonView] at hmarker
  · subst h; simp [javascriptView] at hmarker
  · subst h; simp [csvView] at hmarker
  · subst h; simp [cssView] at hmarker
  · subst h; simp [yamlView] at hmarker
  · subst h
    rw [show (objectView parse).marker = some objectMarker from rfl] at hmarker
    cases hmarker
    have hcv : canvasMarker.isPrefixOf (objectMarker ++ tail) = false := by
      rw [isPrefixOf_append_eq _ _ _ (by decide)]
      decide
    simp [detectContentType, viewRegistry, findMarkerView, canvasView, jsonView,
      ansiView, markdownView, pythonView, javascriptView, csvView, cssView,
      yamlView, objectView, hcv, isPrefixOf_append_self]
  · subst h; simp [textView] at hmarker

theorem marker_short_circuit_witness :
    detectContentType (viewRegistry fun _ => none) (objectMarker ++ "junk".data) =
      "object" := by
  exact marker_short_circuit (fun _ => none) (objectView fun _ => none) objectMarker
    "junk".data (by simp [viewRegistry]) rfl

theorem patScore_fold_nonneg (s : List Char) :
    ∀ (pats : List ((List Char → Bool) × Int)) (init : Int), 0 ≤ init →
      (∀ pw ∈ pats, 0 ≤ pw.2) →
      0 ≤ pats.foldl (fun acc pw => if pw.1 s then acc + pw.2 else acc) init := by
  intro pats
  induction pats with
  | nil => intro init h _; simpa using h
  | cons pw rest ih =>
    intro init hinit hall
    have hw := hall pw (List.mem_cons_self _ _)
    rw [List.foldl_cons]
    refine ih (if pw.1 s then init + pw.2 else init) ?_
      (fun q hq => hall q (List.mem_cons_of_mem _ hq))
    split
    · omega
    · exact hinit

theorem patScore_nonneg (s : List Char) (pats : List ((List Char → Bool) × Int))
    (h : ∀ pw ∈ pats, 0 ≤ pw.2) : 0 ≤ patScore s pats :=
  patScore_fold_nonneg s pats 0 le_rfl h

theorem canvasDetect_cases (parse : List Char → Option JsonV) (c : List Char) :
    canvasDetect parse c = 0 ∨ canvasDetect parse c = 200 := by
  simp only [canvasDetect]
  cases hp : parse (if canvasMarker.isPrefixOf c then c.drop canvasMarker.length else c) with
  | none => left; rfl
  | some v =>
    by_cases hb : (fieldIsStr v "type" "canvas_composer" && fieldIsArr v "images") = true
    · right
      show (if (fieldIsStr v "type" "canvas_composer" && fieldIsArr v "images") = true
        then (200 : Int) else 0) = 200
      rw [if_pos hb]
    · left
      show (if (fieldIsStr v "type" "canvas_composer" && fieldIsArr v "images") = true
        then (200 : Int) else 0) = 0
      rw [if_neg hb]

theorem objectDetect_cases (parse : List Char → Option JsonV) (c : List Char) :
    objectDetect parse c = 0 ∨ objectDetect parse c = 150 := by
  simp only [objectDetect]
  cases hp : parse (if objectMarker.isPrefixOf c then c.drop objectMarker.length else c) with
  | none => left; rfl
  | some v =>
    by_cases hb : (fieldIsStr v "type" "object_viewer" && fieldIsArr v "objects") = true
    · right
      show (if (fieldIsStr v "type" "object_viewer" && fieldIsArr v "objects") = true
        then (150 : Int) else 0) = 150
      rw [if_pos hb]
    · left
      show (if (fieldIsStr v "type" "object_viewer" && fieldIsArr v "objects") = true
        then (150 : Int) else 0) = 0
      rw [if_neg hb]

theorem jsonDetect_cases (parse : List Char → Option JsonV) (c : List Char) :
    jsonDetect parse c = 0 ∨ jsonDetect parse c = 100 := by
  simp only [jsonDetect]
  cases htrim : jsTrim c with
  | nil => left; rfl
  | cons c0 rest =>
    by_cases hc : (c0 == lbraceChar || c0 == '[') = true
    · cases hp : parse (c0 :: rest) with
      | none =>
        left
        show (if (c0 == lbraceChar || c0 == '[') = true
          then ((match (none : Option JsonV) with | some _ => 100 | none => 0) : Int)
          else 0) = 0
        rw [if_pos hc]
      | some v =>
        right
        show (if (c0 == lbraceChar || c0 == '[') = true
          then ((match (some v : Option JsonV) with | some _ => 100 | none => 0) : Int)
          else 0) = 100
        rw [if_pos hc]
    · left
      show (if (c0 == lbraceChar || c0 == '[') = true
        then ((match parse (c0 :: rest) with | some _ => 100 | none => 0) : Int)
        else 0) = 0
      rw [if_neg hc]

theorem ansiDetect_cases (c : List Char) :
    ansiDetect c = 0 ∨ ansiDetect c = 100 := by
  simp only [ansiDetect]
  split
  · right; rfl
  · split
    · right; rfl
    · left; rfl

theorem csvDetect_cases (c : List Char) :
    csvDetect c = 0 ∨ csvDetect c = 5 := by
  simp only [csvDetect]
  split
  · split
    · split
      · right; rfl
      · left; rfl
    · left; rfl
  · left; rfl

theorem foldMax_fst_prop (P : String → Prop) :
    ∀ (entries : List (String × Int)) (init : String × Int),
      P init.1 → (∀ e ∈ entries, P e.1) →
      P ((entries.foldl (fun best e => if e.2 > best.2 then e else best) init).1) := by
  intro entries
  induction entries with
  | nil =>
    intro init h _
    simpa using h
  | cons e rest ih =>
    intro init hinit hall
    rw [List.foldl_cons]
    refine ih (if e.2 > init.2 then e else init) ?_
      (fun q hq => hall q (List.mem_cons_of_mem _ hq))
    split
    · exact hall e (List.mem_cons_self _ _)
    · exact hinit

theorem legacyMaxEntry_fst_prop (P : String → Prop) (entries : List (String × Int))
    (h0 : P "text") (hall : ∀ e ∈ entries, P e.1) : P (legacyMaxEntry entries).1 :=
  foldMax_fst_prop P entries ("text", 0) h0 hall

/-- Claim C2: every view module registered in the source scores at least 0
on every content string (empty or arbitrary non-matching input included);
the fallback text view scores exactly 1 on everything and is the unique
view scoring 1 on fully generic input (quantified over the view modules
present in the repository source); and the legacy detection engine the
claim cites (src/unnamed/part_005) is a total function from content into
its fixed set of supported type names — it never throws, empty content
resolves to the fallback text type, and fully generic input triggers
neither the SVG/HTML signature guards nor any score family, also resolving
to text. -/
theorem detection_total_nonneg (parse : List Char → Option JsonV) :
    (∀ v ∈ viewRegistry parse, ∀ c, 0 ≤ v.detect c)
    ∧ (∀ c, textDetect c = 1)
    ∧ (∀ v ∈ viewRegistry parse, (v.detect genericContent = 1 ↔ v.id = "text"))
    ∧ (∀ c, legacyDetectContentType c ∈
        ["svg", "html", "markdown", "python", "javascript", "css", "text"])
    ∧ legacyDetectContentType [] = "text"
    ∧ legacyDetectContentType genericContent = "text"
    ∧ legacySvgGuard (jsTrim genericContent) = false
    ∧ legacyHtmlGuard (jsTrim genericContent) = false
    ∧ legacyHtmlScore (jsTrim genericContent) = 0 := by
  refine ⟨?_, fun _ => rfl, ?_, ?_, by decide, by decide, by decide, by decide, by decide⟩
  · intro v hmem c
    simp only [viewRegistry, List.mem_cons, List.not_mem_nil, or_false] at hmem
    rcases hmem with h|h|h|h|h|h|h|h|h|h|h <;> subst h
    · show (0 : Int) ≤ canvasDetect parse c
      rcases canvasDetect_cases parse c with h0 | h0 <;> omega
    · show (0 : Int) ≤ jsonDetect parse c
      rcases jsonDetect_cases parse c with h0 | h0 <;> omega
    · show (0 : Int) ≤ ansiDetect c
      rcases ansiDetect_cases c with h0 | h0 <;> omega
    · show (0 : Int) ≤ markdownDetect c
      refine patScore_nonneg _ _ ?_
      intro pw hpw
      fin_cases hpw <;> norm_num
    · show (0 : Int) ≤ pythonDetect c
      refine patScore_nonneg _ _ ?_
      intro pw hpw
      fin_cases hpw <;> norm_num
    · show (0 : Int) ≤ javascriptDetect c
      refine patScore_nonneg _ _ ?_
      intro pw hpw
      fin_cases hpw <;> norm_num
    · show (0 : Int) ≤ csvDetect c
      rcases csvDetect_cases c with h0 | h0 <;> omega
    · show (0 : Int) ≤ cssDetect c
      refine patScore_nonneg _ _ ?_
      intro pw hpw
      fin_cases hpw <;> norm_num
    · show (0 : Int) ≤ yamlDetect c
      simp only [yamlDetect]
      split
      · refine add_nonneg (patScore_nonneg _ _ ?_) (by norm_num)
        intro pw hpw
        fin_cases hpw <;> norm_num
      · refine patScore_nonneg _ _ ?_
        intro pw hpw
        fin_cases hpw <;> norm_num
    · show (0 : Int) ≤ objectDetect parse c
      rcases objectDetect_cases parse c with h0 | h0 <;> omega
    · show (0 : Int) ≤ (1 : Int)
      norm_num
  · intro v hmem
    simp only [viewRegistry, List.mem_cons, List.not_mem_nil, or_false] at hmem
    rcases hmem with h|h|h|h|h|h|h|h|h|h|h <;> subst h
    · show canvasDetect parse genericContent = 1 ↔ ("canvas" : String) = "text"
      constructor
      · intro h1
        rcases canvasDetect_cases parse genericContent with h0 | h0 <;> omega
      · intro h2
        exact absurd h2 (by decide)
    · show jsonDetect parse genericContent = 1 ↔ ("json" : String) = "text"
      rw [show jsonDetect parse genericContent = 0 from rfl]
      decide
    · show ansiDetect genericContent = 1 ↔ ("ansi" : String) = "text"
      decide
    · show markdownDetect genericContent = 1 ↔ ("markdown" : String) = "text"
      decide
    · show pythonDetect genericContent = 1 ↔ ("python" : String) = "text"
      decide
    · show javascriptDetect genericContent = 1 ↔ ("javascript" : String) = "text"
      decide
    · show csvDetect genericContent = 1 ↔ ("csv" : String) = "text"
      decide
    · show cssDetect genericContent = 1 ↔ ("css" : String) = "text"
      decide
    · show yamlDetect genericContent = 1 ↔ ("yaml" : String) = "text"
      decide
    · show objectDetect parse genericContent = 1 ↔ ("object" : String) = "text"
      constructor
      · intro h1
        rcases objectDetect_cases parse genericContent with h0 | h0 <;> omega
      · intro h2
        exact absurd h2 (by decide)
    · show textDetect genericContent = 1 ↔ ("text" : String) = "text"
      decide
  · intro c
    simp only [legacyDetectContentType]
    split
    · decide
    · split
      · decide
      · split
        · decide
        · split
          · refine legacyMaxEntry_fst_prop
              (· ∈ (["svg", "html", "markdown", "python", "javascript", "css", "text"] :
                List String)) _ (by decide) ?_
            intro e he
            fin_cases he <;> simp
          · decide

theorem detection_total_nonneg_witness :
    (markdownView.detect genericContent = 1 ↔ markdownView.id = "text") := by
  exact (detection_total_nonneg fun _ => none).2.2.1 markdownView (by simp [viewRegistry])

theorem setFieldList_idem (l : List (String × JsonV)) (key : String) (val : JsonV) :
    setFieldList (setFieldList l key val) key val = setFieldList l key val := by
  induction l with
  | nil => simp [setFieldList]
  | cons kv rest ih =>
    obtain ⟨k0, v0⟩ := kv
    by_cases hk : (k0 == key) = true
    · simp [setFieldList, hk]
    · simp [setFieldList, hk, ih]

theorem assignSavedState_idem (v v2 st : JsonV)
    (h : assignSavedState v st = some v2) : assignSavedState v2 st = some v2 := by
  cases v with
  | jobj fields =>
    simp only [assignSavedState, Option.some.injEq] at h
    subst h
    simp [assignSavedState, setFieldList_idem]
  | jarr elems =>
    simp only [assignSavedState, Option.some.injEq] at h
    subst h
    simp [assignSavedState]
  | jnull => simp [assignSavedState] at h
  | jbool b => simp [assignSavedState] at h
  | jnum n => simp [assignSavedState] at h
  | jstr s => simp [assignSavedState] at h

/-- Claim C5: injecting the same state twice through
`CanvasView.injectState` yields the same content as injecting it once (the
marker prefix is never double-wrapped), provided the host JSON
parse/stringify pair round-trips on the payload the first injection
serialized; null state leaves content unchanged, as does the default
`BaseView.injectState`; and a payload parsing to a JSON primitive makes the
strict-mode assignment throw, so injection returns the content unchanged. -/
theorem inject_state_idempotent :
    (∀ (parse : List Char → Option JsonV) (stringify : JsonV → List Char)
        (content : List Char) (st : JsonV),
      (∀ d d2, parse (canvasStripped content) = some d →
        assignSavedState d st = some d2 →
        parse (stringify d2) = some d2) →
      canvasInjectState parse stringify
          (canvasInjectState parse stringify content (some st)) (some st)
        = canvasInjectState parse stringify content (some st))
    ∧ (∀ parse stringify content,
        canvasInjectState parse stringify content none = content)
    ∧ (∀ content st, baseInjectState content st = content)
    ∧ (∀ (parse : List Char → Option JsonV) (stringify : JsonV → List Char)
        (content : List Char) (st : JsonV) (n : Int),
        parse (canvasStripped content) = some (JsonV.jnum n) →
        canvasInjectState parse stringify content (some st) = content) := by
  refine ⟨?_, fun _ _ _ => rfl, fun _ _ => rfl, ?_⟩
  · intro parse stringify content st hrt
    cases hts : jsTruthy st with
    | false =>
      have e1 : canvasInjectState parse stringify content (some st) = content := by
        simp [canvasInjectState, hts]
      rw [e1]
      exact e1
    | true =>
      cases hce : content.isEmpty with
      | true =>
        have e1 : canvasInjectState parse stringify content (some st) = content := by
          simp [canvasInjectState, hts, hce]
        rw [e1]
        exact e1
      | false =>
        cases hparse : parse (canvasStripped content) with
        | none =>
          have e1 : canvasInjectState parse stringify content (some st) = content := by
            simp [canvasInjectState, hts, hce, hparse]
          rw [e1]
          exact e1
        | some d =>
          cases hassign : assignSavedState d st with
          | none =>
            have e1 : canvasInjectState parse stringify content (some st) = content := by
              simp [canvasInjectState, hts, hce, hparse, hassign]
            rw [e1]
            exact e1
          | some d2 =>
            have e1 : canvasInjectState parse stringify content (some st) =
                canvasMarker ++ stringify d2 := by
              simp [canvasInjectState, hts, hce, hparse, hassign]
            rw [e1]
            have hne : (canvasMarker ++ stringify d2).isEmpty = false := by
              simp [canvasMarker]
            have hstrip : canvasStripped (canvasMarker ++ stringify d2) =
                stringify d2 := by
              unfold canvasStripped
              rw [if_pos (isPrefixOf_append_self _ _)]
              exact List.drop_left _ _
            have hparse2 := hrt d d2 hparse hassign
            have hassign2 := assignSavedState_idem d d2 st hassign
            simp [canvasInjectState, hts, hne, hstrip, hparse2, hassign2]
  · intro parse stringify content st n hparse
    cases hts : jsTruthy st with
    | false => simp [canvasInjectState, hts]
    | true =>
      cases hce : content.isEmpty with
      | true => simp [canvasInjectState, hts, hce]
      | false => simp [canvasInjectState, hts, hce, hparse, assignSavedState]

theorem inject_state_idempotent_witness :
    canvasInjectState
        (fun s =>
          if s == "p".data then some (JsonV.jobj [])
          else if s == "q".data then some (JsonV.jobj [("savedState", JsonV.jnull)])
          else none)
        (fun _ => "q".data)
        (canvasInjectState
          (fun s =>
            if s == "p".data then some (JsonV.jobj [])
            else if s == "q".data then some (JsonV.jobj [("savedState", JsonV.jnull)])
            else none)
          (fun _ => "q".data) (canvasMarker ++ "p".data) (some JsonV.jnull))
        (some JsonV.jnull)
      = canvasInjectState
        (fun s =>
          if s == "p".data then some (JsonV.jobj [])
          else if s == "q".data then some (JsonV.jobj [("savedState", JsonV.jnull)])
          else none)
        (fun _ => "q".data) (canvasMarker ++ "p".data) (some JsonV.jnull) := by
  refine inject_state_idempotent.1 _ _ (canvasMarker ++ "p".data) JsonV.jnull ?_
  intro d d2 hd hassign
  have hd2 : some (JsonV.jobj []) = some d := hd
  cases hd2
  have ha2 : some (JsonV.jobj [("savedState", JsonV.jnull)]) = some d2 := hassign
  cases ha2
  rfl

theorem containsSub_iff_infix (s pat : List Char) :
    containsSub s pat = true ↔ pat <:+: s := by
  induction s with
  | nil =>
    cases pat with
    | nil => simp [containsSub]
    | cons c rest => simp [containsSub]
  | cons c rest ih =>
    cases hpat : pat with
    | nil => simp [containsSub]
    | cons p ps =>
      rw [← hpat]
      simp only [containsSub, hpat, Bool.or_eq_true]
      rw [← hpat, List.infix_cons_iff, ih, List.isPrefixOf_iff_prefix]

theorem splitFuel_fuel_irrel (sep : List Char) :
    ∀ (f1 : Nat) (l acc : List Char) (f2 : Nat), l.length ≤ f1 → l.length ≤ f2 →
      splitFuel sep f1 l acc = splitFuel sep f2 l acc := by
  intro f1
  induction f1 with
  | zero =>
    intro l acc f2 h1 _
    have : l = [] := by
      cases l with
      | nil => rfl
      | cons c rest => simp at h1
    subst this
    cases f2 <;> rfl
  | succ g1 ih =>
    intro l acc f2 h1 h2
    cases l with
    | nil => cases f2 <;> rfl
    | cons c rest =>
      cases f2 with
      | zero => simp at h2
      | succ g2 =>
        simp only [splitFuel]
        split
        · rw [ih (rest.drop (sep.length - 1)) [] g2 ?_ ?_]
          · simp only [List.length_drop, List.length_cons] at h1 ⊢
            omega
          · simp only [List.length_drop, List.length_cons] at h2 ⊢
            omega
        · exact ih rest (c :: acc) g2 (by simp at h1; omega) (by simp at h2; omega)

theorem splitFuel_no_sep (l : List Char) :
    ∀ (fuel : Nat) (acc : List Char), l.length ≤ fuel → ¬ listSep <:+: l →
      splitFuel listSep fuel l acc = [acc.reverse ++ l] := by
  induction l with
  | nil =>
    intro fuel acc _ _
    cases fuel <;> simp [splitFuel]
  | cons c rest ih =>
    intro fuel acc hfuel hinf
    cases fuel with
    | zero => simp at hfuel
    | succ f =>
      have hg : (listSep.isPrefixOf (c :: rest) && !listSep.isEmpty) = false := by
        have : listSep.isPrefixOf (c :: rest) = false := by
          rw [Bool.eq_false_iff]
          intro hpre
          exact hinf ((List.isPrefixOf_iff_prefix.mp hpre).isInfix)
        simp [this]
      simp only [splitFuel, hg, Bool.false_eq_true, if_false]
      rw [ih f (c :: acc) (by simp at hfuel ⊢; omega)
        (fun hx => hinf (hx.trans (List.suffix_cons c rest).isInfix))]
      simp

theorem splitFuel_sep_start (t acc : List Char) (fuel f2 : Nat)
    (hfuel : (listSep ++ t).length ≤ fuel) (hf2 : t.length ≤ f2) :
    splitFuel listSep fuel (listSep ++ t) acc = acc.reverse :: splitFuel listSep f2 t [] := by
  have h22 : listSep.length = 22 := by decide
  cases fuel with
  | zero =>
    rw [List.length_append, h22] at hfuel
    omega
  | succ f =>
    rw [show listSep ++ t = '\n' :: ("---LIST_SEPARATOR---\n".data ++ t) from rfl]
    simp only [splitFuel]
    have hg : (listSep.isPrefixOf ('\n' :: ("---LIST_SEPARATOR---\n".data ++ t)) &&
        !listSep.isEmpty) = true := by
      rw [show ('\n' :: ("---LIST_SEPARATOR---\n".data ++ t)) = listSep ++ t from rfl,
        isPrefixOf_append_self]
      rfl
    rw [if_pos hg]
    congr 1
    rw [show listSep.length - 1 = ("---LIST_SEPARATOR---\n".data).length from by decide,
      List.drop_left]
    refine splitFuel_fuel_irrel listSep f t [] f2 ?_ hf2
    rw [List.length_append, h22] at hfuel
    omega

theorem sep_no_straddle (a t : List Char) (hcore : containsSub a listSepCore = false) :
    ∀ k, k < a.length → ¬ listSep <+: (a.drop k ++ (listSep ++ t)) := by
  intro k hk hpre
  have h22 : listSep.length = 22 := by decide
  have hcorea : ¬ listSepCore <:+: a := by
    intro hinf
    rw [← containsSub_iff_infix] at hinf
    rw [hcore] at hinf
    exact Bool.false_ne_true hinf
  have hsne : a.drop k ≠ [] := by
    intro h
    have := List.drop_eq_nil_iff.mp h
    omega
  have hsuf : a.drop k <:+ a := List.drop_suffix k a
  obtain ⟨u, hu⟩ := hpre
  by_cases hlen : listSep.length ≤ (a.drop k).length
  · have htake := congrArg (List.take listSep.length) hu
    rw [List.take_left, List.take_append_eq_append_take,
      Nat.sub_eq_zero_of_le hlen, List.take_zero, List.append_nil] at htake
    have hps : listSep <+: a.drop k := by
      rw [htake]
      exact List.take_prefix _ _
    exact hcorea ((show listSepCore <:+: listSep by decide).trans
      (hps.isInfix.trans hsuf.isInfix))
  · push_neg at hlen
    have h1 : (listSep ++ u).take (a.drop k).length = listSep.take (a.drop k).length := by
      rw [List.take_append_eq_append_take, Nat.sub_eq_zero_of_le (le_of_lt hlen),
        List.take_zero, List.append_nil]
    have h2 : (a.drop k ++ (listSep ++ t)).take (a.drop k).length = a.drop k := by
      rw [List.take_append_eq_append_take, Nat.sub_self, List.take_zero, List.append_nil,
        List.take_length]
    have hseq : a.drop k = listSep.take (a.drop k).length := by
      have htk := congrArg (List.take (a.drop k).length) hu
      rw [h1, h2] at htk
      exact htk.symm
    have h3 : (listSep ++ u).drop (a.drop k).length =
        listSep.drop (a.drop k).length ++ u := by
      rw [List.drop_append_eq_append_drop, Nat.sub_eq_zero_of_le (le_of_lt hlen),
        List.drop_zero]
    have h4 : (a.drop k ++ (listSep ++ t)).drop (a.drop k).length = listSep ++ t := by
      rw [List.drop_append_eq_append_drop, Nat.sub_self, List.drop_zero, List.drop_length,
        List.nil_append]
    have hdrop := congrArg (List.drop (a.drop k).length) hu
    rw [h3, h4] at hdrop
    have hhead := congrArg (List.take 1) hdrop
    have h5 : (listSep ++ t).take 1 = ['\n'] := by
      rw [List.take_append_eq_append_take,
        show (1 : Nat) - listSep.length = 0 from by decide, List.take_zero,
        List.append_nil]
      decide
    have h6 : (listSep.drop (a.drop k).length ++ u).take 1 =
        (listSep.drop (a.drop k).length).take 1 := by
      rw [List.take_append_eq_append_take]
      have hz : 1 - (listSep.drop (a.drop k).length).length = 0 := by
        rw [List.length_drop, h22]
        omega
      rw [hz, List.take_zero, List.append_nil]
    rw [h6, h5] at hhead
    have hn1 : 1 ≤ (a.drop k).length := by
      cases hc : a.drop k with
      | nil => exact absurd hc hsne
      | cons x xs => simp [hc]
    have h21 : (a.drop k).length = 21 := by
      have hdec : ∀ m : Nat, m < 22 → 1 ≤ m →
          (listSep.drop m).take 1 = ['\n'] → m = 21 := by decide
      exact hdec (a.drop k).length (by omega) hn1 hhead
    rw [h21] at hseq
    have hc21 : listSepCore <:+: listSep.take 21 := by decide
    rw [← hseq] at hc21
    exact hcorea (hc21.trans hsuf.isInfix)

theorem splitFuel_scan (t : List Char) (f2 : Nat) (hf2 : t.length ≤ f2) :
    ∀ (a acc : List Char) (fuel : Nat), (a ++ (listSep ++ t)).length ≤ fuel →
      (∀ k, k < a.length → ¬ listSep <+: (a.drop k ++ (listSep ++ t))) →
      splitFuel listSep fuel (a ++ (listSep ++ t)) acc
        = (acc.reverse ++ a) :: splitFuel listSep f2 t [] := by
  intro a
  induction a with
  | nil =>
    intro acc fuel hfuel _
    rw [List.nil_append]
    rw [splitFuel_sep_start t acc fuel f2 hfuel hf2]
    simp
  | cons c a' ih =>
    intro acc fuel hfuel hA
    cases fuel with
    | zero => simp at hfuel
    | succ f =>
      rw [List.cons_append]
      have h0 := hA 0 (by simp)
      have hg : (listSep.isPrefixOf (c :: (a' ++ (listSep ++ t))) &&
          !listSep.isEmpty) = false := by
        have hp : listSep.isPrefixOf (c :: (a' ++ (listSep ++ t))) = false := by
          rw [Bool.eq_false_iff]
          intro hb
          exact h0 (List.isPrefixOf_iff_prefix.mp hb)
        simp [hp]
      simp only [splitFuel, hg, Bool.false_eq_true, if_false]
      rw [ih (c :: acc) f (by simp at hfuel ⊢; omega) ?_]
      · simp
      · intro k hk
        have := hA (k + 1) (by simp; omega)
        simpa using this

/-- Claim C7 is false as stated: these two items contain no occurrence of
the full separator, yet joining and re-splitting them does not return the
original sequence — the separator reassembles across the join boundary
because the first item ends with the separator body without its trailing
newline. -/
theorem split_join_counterexample :
    containsSub "A\n---LIST_SEPARATOR---".data listSep = false
    ∧ containsSub "B".data listSep = false
    ∧ splitOnSep listSep
        (joinSep listSep ["A\n---LIST_SEPARATOR---".data, "B".data])
        = ["A".data, "---LIST_SEPARATOR---\nB".data]
    ∧ splitOnSep listSep
        (joinSep listSep ["A\n---LIST_SEPARATOR---".data, "B".data])
        ≠ ["A\n---LIST_SEPARATOR---".data, "B".data] := by
  refine ⟨by decide, by decide, by decide, by decide⟩

/-- Claim C7 (amended): joining a non-empty sequence of items with
`LIST_SEPARATOR` and splitting the result on the separator returns exactly
the original sequence, provided no item contains the separator core token
`---LIST_SEPARATOR---` (merely not containing the full newline-wrapped
separator is not enough, as the counterexample shows; and the empty
sequence joins to the empty string, which splits to `[""]`). -/
theorem split_join_roundtrip :
    ∀ items : List (List Char), items ≠ [] →
      (∀ it ∈ items, containsSub it listSepCore = false) →
      splitOnSep listSep (joinSep listSep items) = items := by
  intro items
  induction items with
  | nil => intro h; exact absurd rfl h
  | cons a rest ih =>
    intro _ hfree
    cases rest with
    | nil =>
      have hj : joinSep listSep [a] = a := by simp [joinSep, List.intercalate]
      rw [hj]
      have hcore := hfree a (List.mem_cons_self _ _)
      have hnos : ¬ listSep <:+: a := by
        intro h
        have hco : listSepCore <:+: a :=
          (show listSepCore <:+: listSep by decide).trans h
        rw [← containsSub_iff_infix] at hco
        rw [hcore] at hco
        exact Bool.false_ne_true hco
      unfold splitOnSep
      rw [splitFuel_no_sep a a.length [] le_rfl hnos]
      simp
    | cons b rest' =>
      have hj : joinSep listSep (a :: b :: rest') =
          a ++ (listSep ++ joinSep listSep (b :: rest')) := by
        simp [joinSep, List.intercalate, List.intersperse]
      rw [hj]
      unfold splitOnSep
      rw [splitFuel_scan (joinSep listSep (b :: rest'))
        (joinSep listSep (b :: rest')).length le_rfl a []
        (a ++ (listSep ++ joinSep listSep (b :: rest'))).length le_rfl
        (sep_no_straddle a _ (hfree a (List.mem_cons_self _ _)))]
      simp only [List.reverse_nil, List.nil_append]
      congr 1
      exact ih (by simp) (fun it hit => hfree it (List.mem_cons_of_mem _ hit))

theorem split_join_roundtrip_witness :
    splitOnSep listSep (joinSep listSep ["item1".data, "item2".data]) =
      ["item1".data, "item2".data] := by
  exact split_join_roundtrip ["item1".data, "item2".data] (by simp) (by decide)

theorem findMarkerView_canvas_append (parse : List Char → Option JsonV) (s : List Char) :
    findMarkerView (viewRegistry parse) (canvasMarker ++ s) = some (canvasView parse) := by
  simp [viewRegistry, findMarkerView, canvasView, isPrefixOf_append_self]

theorem findMarkerView_object_append (parse : List Char → Option JsonV) (s : List Char) :
    findMarkerView (viewRegistry parse) (objectMarker ++ s) = some (objectView parse) := by
  have hcv : canvasMarker.isPrefixOf (objectMarker ++ s) = false := by
    rw [isPrefixOf_append_eq _ _ _ (by decide)]
    decide
  simp [viewRegistry, findMarkerView, canvasView, jsonView, ansiView, markdownView,
    pythonView, javascriptView, csvView, cssView, yamlView, objectView, hcv,
    isPrefixOf_append_self]

theorem padStart3_length (s : String) (h : s.length ≤ 3) : (padStart3 s).length = 3 := by
  unfold padStart3
  split
  · omega
  · simp only [String.length_append]
    rw [show (String.mk (List.replicate (3 - s.length) '0')).length =
      3 - s.length from List.length_replicate _ _]
    omega

/-- Claim C8: the download path strips a recognized marker wrapper to
recover the real payload (re-serializing the object/canvas families as
pretty JSON with extension `json`), picks the extension of unwrapped
content from the fixed type-to-extension table, and for list content emits
one prepared file per item named by the zero-padded one-based scheme
`item_001`, `item_002`, and so on. -/
theorem download_export_contract :
    (∀ (parse : List Char → Option JsonV) (pretty : JsonV → List Char)
        (payload : List Char) (d : JsonV),
      parse payload = some d →
      prepareContentForDownload parse pretty (objectMarker ++ payload) = (pretty d, "json")
      ∧ prepareContentForDownload parse pretty (canvasMarker ++ payload) =
        (pretty d, "json"))
    ∧ (∀ (parse : List Char → Option JsonV) (pretty : JsonV → List Char)
        (content : List Char), content ≠ [] →
        findMarkerView (viewRegistry parse) content = none →
        prepareContentForDownload parse pretty content =
          (content, extTable (detectContentType (viewRegistry parse) content)))
    ∧ (∀ (parse : List Char → Option JsonV) (pretty : JsonV → List Char)
        (content : List Char),
        (downloadListFiles parse pretty content).length =
          (splitOnSep listSep content).length)
    ∧ (∀ (parse : List Char → Option JsonV) (pretty : JsonV → List Char)
        (content : List Char) (i : Nat) (item : List Char),
        (splitOnSep listSep content)[i]? = some item →
        (downloadListFiles parse pretty content)[i]? =
          some (itemFileName i (prepareContentForDownload parse pretty item).2,
            (prepareContentForDownload parse pretty item).1))
    ∧ (∀ s : String, s.length ≤ 3 → (padStart3 s).length = 3)
    ∧ itemFileName 0 "txt" = "item_001.txt" := by
  refine ⟨?_, ?_, ?_, ?_, padStart3_length, by decide⟩
  · intro parse pretty payload d hp
    constructor
    · have hne : (objectMarker ++ payload).isEmpty = false := rfl
      have hstrip : stripContentMarker (viewRegistry parse) (objectMarker ++ payload) =
          (payload, some (objectView parse)) := by
        unfold stripContentMarker
        rw [findMarkerView_object_append]
        simp [objectView, List.drop_left]
      simp [prepareContentForDownload, hne, hstrip, hp, objectView]
    · have hne : (canvasMarker ++ payload).isEmpty = false := rfl
      have hstrip : stripContentMarker (viewRegistry parse) (canvasMarker ++ payload) =
          (payload, some (canvasView parse)) := by
        unfold stripContentMarker
        rw [findMarkerView_canvas_append]
        simp [canvasView, List.drop_left]
      simp [prepareContentForDownload, hne, hstrip, hp, canvasView]
  · intro parse pretty content hne hfm
    have hempty : content.isEmpty = false := by
      cases content with
      | nil => exact absurd rfl hne
      | cons c rest => rfl
    have hstrip : stripContentMarker (viewRegistry parse) content = (content, none) := by
      unfold stripContentMarker
      rw [hfm]
    simp [prepareContentForDownload, hempty, hstrip]
  · intro parse pretty content
    simp [downloadListFiles]
  · intro parse pretty content i item hi
    simp [downloadListFiles, List.getElem?_mapIdx, hi]

theorem download_export_contract_witness :
    prepareContentForDownload (fun s => if s == "0".data then some (JsonV.jnum 0) else none)
      (fun _ => "0".data) (objectMarker ++ "0".data) = ("0".data, "json") := by
  exact (download_export_contract.1
    (fun s => if s == "0".data then some (JsonV.jnum 0) else none)
    (fun _ => "0".data) "0".data (JsonV.jnum 0) rfl).1
